import Mathlib

/-!
Verification development for `src/src/half.c` (the IEEE half-precision
conversion unit, derived from ieeehalfprecision.c).

Machine integers are modelled as `Nat`, with an explicit `% 65536` or
`% 4294967296` at exactly the points where the C program truncates: casts to
`cmsUInt16Number` / `cmsUInt32Number`, and arithmetic carried out in unsigned
32-bit type after the usual arithmetic conversions.

Two places in the C source need special care and are documented at the
corresponding definitions below:

* `hes` is declared `cmsUInt32Number` (lines 90 and 180), so the assignment
  `hes = ((int)(xe >> 23)) - 127 + 15;` wraps a negative re-biased exponent to
  a huge unsigned value.  The embedding reproduces the wrap with
  `(... + (2^32 - 112)) % 2^32`, and the comparisons `hes >= 0x1F`,
  `hes <= 0` and `14 - hes` with unsigned semantics.
* line 107 assigns `checkieee = FLASE;`, an identifier not defined anywhere in
  the sources available under `src/`; see the definition `FLASE` below.
-/

namespace HalfConv

/-- Subtraction `a - b` as the C code performs it in unsigned 32-bit
arithmetic, i.e. modulo `2^32`.  Every `b` passed below is already reduced
modulo `2^32`, so adding `2^32` before subtracting never truncates. -/
def u32sub (a b : Nat) : Nat := (a + 4294967296 - b) % 4294967296

/-- Loop body of `singles2halfp` (`src/src/half.c` lines 114-155) on one
32-bit input pattern `x`, returning the 16-bit half pattern stored through
`*hp++`.  `hes` is the C local of type `cmsUInt32Number`; the C expression
`((int)(xe >> 23)) - 127 + 15` assigned to it equals
`((xe >> 23) + (2^32 - 112)) mod 2^32`, and `14 - hes`, `13 - hes` are
computed modulo `2^32` (`u32sub`).  Casts to `cmsUInt16Number` appear as
`% 65536`. -/
def singles2halfp_elem (x : Nat) : Nat :=
  if x &&& 0x7FFFFFFF = 0 then
    (x >>> 16) % 65536
  else
    let xs := x &&& 0x80000000
    let xe := x &&& 0x7F800000
    let xm := x &&& 0x007FFFFF
    if xe = 0 then
      (xs >>> 16) % 65536
    else if xe = 0x7F800000 then
      if xm = 0 then ((xs >>> 16) ||| 0x7C00) % 65536
      else 0xFE00
    else
      let hs := (xs >>> 16) % 65536
      let hes := ((xe >>> 23) + 4294967184) % 4294967296
      if 0x1F ≤ hes then
        ((xs >>> 16) ||| 0x7C00) % 65536
      else if hes ≤ 0 then
        let hm :=
          if 24 < u32sub 14 hes then 0
          else
            let xm2 := xm ||| 0x00800000
            let hm0 := (xm2 >>> u32sub 14 hes) % 65536
            if (xm2 >>> u32sub 13 hes) &&& 1 ≠ 0 then (hm0 + 1) % 65536 else hm0
        hs ||| hm
      else
        let he := (hes <<< 10) % 65536
        let hm := (xm >>> 13) % 65536
        if xm &&& 0x00001000 ≠ 0 then ((hs ||| he ||| hm) + 1) % 65536
        else hs ||| he ||| hm

/-- Loop body of `doubles2halfp` (`src/src/half.c` lines 206-247) on the
high-order 32-bit word `x` of one double (the loop reads `x = *xp++` and then
skips the word holding the low 32 mantissa bits with a second `xp++`; the low
word is never read).  `hes` is again a `cmsUInt32Number`, so
`((int)(xe >> 20)) - 1023 + 15` appears as `(... + (2^32 - 1008)) mod 2^32`. -/
def doubles2halfp_elem (x : Nat) : Nat :=
  if x &&& 0x7FFFFFFF = 0 then
    (x >>> 16) % 65536
  else
    let xs := x &&& 0x80000000
    let xe := x &&& 0x7FF00000
    let xm := x &&& 0x000FFFFF
    if xe = 0 then
      (xs >>> 16) % 65536
    else if xe = 0x7FF00000 then
      if xm = 0 then ((xs >>> 16) ||| 0x7C00) % 65536
      else 0xFE00
    else
      let hs := (xs >>> 16) % 65536
      let hes := ((xe >>> 20) + 4294966288) % 4294967296
      if 0x1F ≤ hes then
        ((xs >>> 16) ||| 0x7C00) % 65536
      else if hes ≤ 0 then
        let hm :=
          if 21 < u32sub 10 hes then 0
          else
            let xm2 := xm ||| 0x00100000
            let hm0 := (xm2 >>> u32sub 11 hes) % 65536
            if (xm2 >>> u32sub 10 hes) &&& 1 ≠ 0 then (hm0 + 1) % 65536 else hm0
        hs ||| hm
      else
        let he := (hes <<< 10) % 65536
        let hm := (xm >>> 10) % 65536
        if xm &&& 0x00000200 ≠ 0 then ((hs ||| he ||| hm) + 1) % 65536
        else hs ||| he ||| hm

/-- The `do { e++; hm <<= 1; } while ((hm & 0x0400) == 0);` loop of the
half-denormal branch of `halfp2singles` (lines 305-309) and `halfp2doubles`
(lines 389-393).  `e` is a `cmsUInt32Number` initialised to `-1` (that is,
`2^32 - 1`) and incremented modulo `2^32`; `hm` is a `cmsUInt16Number`
shifted modulo `2^16`.  The C loop runs until bit 10 of `hm` becomes set;
for the callers `hm` is a nonzero 10-bit value, so at most 10 iterations
happen.  A fuel argument (16 at the call sites, more than the loop can ever
use on its reachable inputs) makes the recursion structural. -/
def denormLoop : Nat → Nat → Nat → Nat × Nat
  | 0, e, hm => (e, hm)
  | fuel + 1, e, hm =>
    let e2 := (e + 1) % 4294967296
    let hm2 := (hm <<< 1) % 65536
    if hm2 &&& 0x0400 = 0 then denormLoop fuel e2 hm2 else (e2, hm2)

/-- Loop body of `halfp2singles` (`src/src/half.c` lines 296-329) on one
16-bit half pattern `h`, returning the 32-bit single pattern written.  In the
denormal branch the C statement `xes = ((cmsInt32Number)(he >> 10)) - 15 + 127 - e;`
subtracts the unsigned `e`, so the computation happens in unsigned 32-bit
arithmetic ( `(he >> 10) - 15 + 127` equals `(he >> 10) + 112` exactly ) and
the result is wrapped modulo `2^32`; `xes << 23` is then cast back to
`cmsUInt32Number`.  At all inputs that reach these lines `xes` stays in
`[103, 112]`, where the int32/uint32 readings agree. -/
def halfp2singles_elem (h : Nat) : Nat :=
  if h &&& 0x7FFF = 0 then
    (h <<< 16) % 4294967296
  else
    let hs := h &&& 0x8000
    let he := h &&& 0x7C00
    let hm := h &&& 0x03FF
    if he = 0 then
      let p := denormLoop 16 4294967295 hm
      let e := p.1
      let hm2 := p.2
      let xs := (hs <<< 16) % 4294967296
      let xes := ((he >>> 10) + 112 + 4294967296 - e) % 4294967296
      let xe := (xes <<< 23) % 4294967296
      let xm := ((hm2 &&& 0x03FF) <<< 13) % 4294967296
      xs ||| xe ||| xm
    else if he = 0x7C00 then
      if hm = 0 then ((hs <<< 16) % 4294967296) ||| 0x7F800000
      else 0xFFC00000
    else
      let xs := (hs <<< 16) % 4294967296
      let xes := (he >>> 10) + 112
      let xe := (xes <<< 23) % 4294967296
      let xm := (hm <<< 13) % 4294967296
      xs ||| xe ||| xm

/-- Loop body of `halfp2doubles` (`src/src/half.c` lines 380-414) on one
16-bit half pattern `h`, returning the 32-bit value written to the high-order
word of the destination double (the word at offset `next + 2*i`; the low
word of the double is skipped by the trailing `xp++` and never written).
The bias re-computation uses 1023, so `(he >> 10) - 15 + 1023` equals
`(he >> 10) + 1008`, and in the denormal branch the unsigned `e` is
subtracted modulo `2^32` as in `halfp2singles_elem`. -/
def halfp2doubles_elem (h : Nat) : Nat :=
  if h &&& 0x7FFF = 0 then
    (h <<< 16) % 4294967296
  else
    let hs := h &&& 0x8000
    let he := h &&& 0x7C00
    let hm := h &&& 0x03FF
    if he = 0 then
      let p := denormLoop 16 4294967295 hm
      let e := p.1
      let hm2 := p.2
      let xs := (hs <<< 16) % 4294967296
      let xes := ((he >>> 10) + 1008 + 4294967296 - e) % 4294967296
      let xe := (xes <<< 20) % 4294967296
      let xm := ((hm2 &&& 0x03FF) <<< 10) % 4294967296
      xs ||| xe ||| xm
    else if he = 0x7C00 then
      if hm = 0 then ((hs <<< 16) % 4294967296) ||| 0x7FF00000
      else 0xFFF80000
    else
      let xs := (hs <<< 16) % 4294967296
      let xes := (he >>> 10) + 1008
      let xe := (xes <<< 20) % 4294967296
      let xm := (hm <<< 10) % 4294967296
      xs ||| xe ||| xm

/-! ### Process-level model

Each of the four routines has its own pair of function-local statics
`next` and `checkieee` (C statics are zero-initialised, so `next` starts at 0
and `checkieee` at TRUE).  The host floating-point environment is modelled by
the two 32-bit words `w0, w1` that the double literal `1.0` occupies in
memory, in address order: the probe takes a pointer to the first word, moves
to the second when the first is zero (recording `next = 1`), and compares the
selected word against 0x3FF00000.  Buffers are modelled as total functions
from word index to stored value, wrapped in `Option` (`none` = NULL). -/

structure Host where
  w0 : Nat
  w1 : Nat

/-- Little-endian adjustment the probe records in the static `next`
(lines 98-103 etc.): 0 when the first word of `1.0` is nonzero (big endian),
1 otherwise. -/
def probeNext (host : Host) : Nat := if host.w0 ≠ 0 then 0 else 1

/-- The word of `1.0` the probe ends up pointing at. -/
def probeWord (host : Host) : Nat := if host.w0 ≠ 0 then host.w0 else host.w1

/-- Outcome of the IEEE-754 compliance probe: the selected high-order word of
`1.0` must be exactly 0x3FF00000 (line 104 etc.). -/
def probePass (host : Host) : Bool := probeWord host == 0x3FF00000

/-- The pair of function-local statics of one conversion routine
(`static cmsUInt32Number next; static cmsBool checkieee = TRUE;`). -/
structure Statics where
  checkieee : Bool
  next : Nat

/-- Statics at process start: `checkieee = TRUE`, `next` zero-initialised. -/
def initStatics : Statics := ⟨true, 0⟩

/-- Modelled from the spec: line 107 of `src/src/half.c` reads
`checkieee = FLASE;`, and the identifier `FLASE` is defined nowhere in the
sources available under `src/` (the three sibling routines assign `FALSE` at
the same point, under the same comment).  The spec states the probe result is
cached after a successful first check ("Runs once per process lifetime;
cached thereafter", "The check and its cached result must be computed at most
once per process"), so `FLASE` is taken to denote `FALSE`. -/
def FLASE : Bool := false

/-- The `if (checkieee) { ... }` prologue shared verbatim by the four
routines (lines 96-108, 186-198, 279-291, 361-373): when the flag is still
set, select the probe word, record `next`, and fail (returning the statics
with only `next` updated) when the word is not 0x3FF00000; on success clear
the flag to `clearVal` (`FLASE` in `singles2halfp`, `FALSE` in the other
three).  Result: (new statics, whether the probe ran, whether to go on). -/
def prologue (clearVal : Bool) (host : Host) (st : Statics) :
    Statics × Bool × Bool :=
  if st.checkieee then
    if probePass host then (⟨clearVal, probeNext host⟩, true, true)
    else (⟨st.checkieee, probeNext host⟩, true, false)
  else (st, false, true)

/-- Pointwise update of a buffer modelled as a function. -/
def writeMem (m : Nat → Nat) (j v : Nat) : Nat → Nat :=
  fun k => if k = j then v else m k

/-- The `while (numel--)` loop common to the four routines: each iteration
converts one element with `f`, reading the source at index `si` and writing
the target at index `ti`; the strides are 1 except that `doubles2halfp`
advances its source pointer by 2 (`x = *xp++; xp++;`, line 207) and
`halfp2doubles` advances its target pointer by 2 (`*xp++ = ...; xp++;`,
lines 398/401/403/410 and 413). -/
def convLoop (f src : Nat → Nat) (sstep tstep si ti n : Nat) (mem : Nat → Nat) :
    Nat → Nat :=
  match n, si, ti, mem with
  | 0, _, _, mem => mem
  | n + 1, si, ti, mem =>
    convLoop f src sstep tstep (si + sstep) (ti + tstep) n
      (writeMem mem ti (f (src si)))

/-- Common shape of the four conversion routines: probe prologue, then the
NULL check `if (source == NULL || target == NULL) return TRUE;` (lines
110-112, 202-204, 293-294, 377-378), then the conversion loop.  `snext` /
`tnext` record whether the routine applies the `xp += next;` little-endian
adjustment to its source (`doubles2halfp`, line 200) or target
(`halfp2doubles`, line 375) pointer; in `doubles2halfp` and `halfp2doubles`
that adjustment textually precedes the NULL check, which is observationally
irrelevant since the pointer is not dereferenced before the check.
Returns (new statics, return value, resulting target buffer). -/
def convRoutine (clearVal : Bool) (f : Nat → Nat) (sstep tstep : Nat)
    (snext tnext : Bool) (host : Host) (st : Statics)
    (target source : Option (Nat → Nat)) (numel : Nat) :
    Statics × Bool × Option (Nat → Nat) :=
  let pr := prologue clearVal host st
  if pr.2.2 then
    match source, target with
    | some src, some tgt =>
      (pr.1, true, some (convLoop f src sstep tstep
        (if snext then pr.1.next else 0) (if tnext then pr.1.next else 0)
        numel tgt))
    | _, _ => (pr.1, true, target)
  else (pr.1, false, target)

/-- `singles2halfp` (src/src/half.c lines 84-157): element function
`singles2halfp_elem`, unit strides, and — uniquely — the `FLASE` assignment
at line 107 as its flag-clearing value. -/
def singles2halfp : Host → Statics → Option (Nat → Nat) → Option (Nat → Nat) →
    Nat → Statics × Bool × Option (Nat → Nat) :=
  convRoutine FLASE singles2halfp_elem 1 1 false false

/-- `doubles2halfp` (lines 174-249): reads the word at `next + 2*i` of the
source (the high-order word of the i-th double) and writes one half per
element. -/
def doubles2halfp : Host → Statics → Option (Nat → Nat) → Option (Nat → Nat) →
    Nat → Statics × Bool × Option (Nat → Nat) :=
  convRoutine false doubles2halfp_elem 2 1 true false

/-- `halfp2singles` (lines 266-331). -/
def halfp2singles : Host → Statics → Option (Nat → Nat) → Option (Nat → Nat) →
    Nat → Statics × Bool × Option (Nat → Nat) :=
  convRoutine false halfp2singles_elem 1 1 false false

/-- `halfp2doubles` (lines 348-416): writes the word at `next + 2*i` of the
target (the high-order word of the i-th double) and skips the other word of
each destination double. -/
def halfp2doubles : Host → Statics → Option (Nat → Nat) → Option (Nat → Nat) →
    Nat → Statics × Bool × Option (Nat → Nat) :=
  convRoutine false halfp2doubles_elem 1 2 false true

/-- Names of the four conversion routines. -/
inductive Routine : Type where
  | s2h
  | d2h
  | h2s
  | h2d
deriving DecidableEq

/-- Arguments of one call: target buffer, source buffer, element count. -/
structure CallArgs where
  target : Option (Nat → Nat)
  source : Option (Nat → Nat)
  numel : Nat

/-- The function-local statics of all four routines together: the only state
that outlives a call. -/
structure ProcState where
  s2h : Statics
  d2h : Statics
  h2s : Statics
  h2d : Statics

/-- Process state at program start: every routine still has to probe. -/
def initState : ProcState :=
  ⟨initStatics, initStatics, initStatics, initStatics⟩

/-- The `checkieee` flag a call to routine `r` would consult. -/
def flagOf (ps : ProcState) : Routine → Bool
  | .s2h => ps.s2h.checkieee
  | .d2h => ps.d2h.checkieee
  | .h2s => ps.h2s.checkieee
  | .h2d => ps.h2d.checkieee

/-- One call to routine `r`: returns the new process state, the routine's
return value, and whether this call ran the probe (it does exactly when the
routine's own `checkieee` flag was still set on entry). -/
def step (host : Host) (ps : ProcState) (r : Routine) (a : CallArgs) :
    ProcState × Bool × Bool :=
  match r with
  | .s2h =>
    let res := singles2halfp host ps.s2h a.target a.source a.numel
    ({ ps with s2h := res.1 }, res.2.1, ps.s2h.checkieee)
  | .d2h =>
    let res := doubles2halfp host ps.d2h a.target a.source a.numel
    ({ ps with d2h := res.1 }, res.2.1, ps.d2h.checkieee)
  | .h2s =>
    let res := halfp2singles host ps.h2s a.target a.source a.numel
    ({ ps with h2s := res.1 }, res.2.1, ps.h2s.checkieee)
  | .h2d =>
    let res := halfp2doubles host ps.h2d a.target a.source a.numel
    ({ ps with h2d := res.1 }, res.2.1, ps.h2d.checkieee)

/-- Run a whole trace of calls from a process state. -/
def runTrace (host : Host) : ProcState → List (Routine × CallArgs) → ProcState
  | ps, [] => ps
  | ps, c :: cs => runTrace host (step host ps c.1 c.2).1 cs

/-- Number of calls in a trace that belong to routine `r` and run the probe. -/
def probeRuns (host : Host) : ProcState → List (Routine × CallArgs) → Routine → Nat
  | _, [], _ => 0
  | ps, c :: cs, r =>
    (if c.1 = r ∧ (step host ps c.1 c.2).2.2 = true then 1 else 0) +
      probeRuns host (step host ps c.1 c.2).1 cs r

/-- A little-endian IEEE-754 host: `1.0` is stored as the words
(0x00000000, 0x3FF00000). -/
def hostLE : Host := ⟨0, 0x3FF00000⟩

/-- Call arguments with both buffers NULL. -/
def nullArgs : CallArgs := ⟨none, none, 0⟩

/-! ### Bit-field toolkit

`land_window x n k` extracts the `n`-bit field starting at bit `k`:
masking with `(2^n - 1) * 2^k` equals taking `x / 2^k % 2^n` re-shifted.
All concrete masks of half.c (`0x7FFF`, `0x8000`, `0x7C00`, `0x03FF`,
`0x7FFFFFFF`, `0x80000000`, `0x7F800000`, `0x007FFFFF`, `0x7FF00000`,
`0x000FFFFF`) are instances of this shape. -/

lemma land_window (x n k : Nat) : x &&& (2 ^ n - 1) * 2 ^ k = x / 2 ^ k % 2 ^ n * 2 ^ k := by
  have hL : (2 ^ n - 1) * 2 ^ k = (2 ^ n - 1) <<< k := (Nat.shiftLeft_eq _ _).symm
  have hR : x / 2 ^ k % 2 ^ n * 2 ^ k = ((x >>> k) % 2 ^ n) <<< k := by
    rw [Nat.shiftLeft_eq, Nat.shiftRight_eq_div_pow]
  rw [hL, hR]
  apply Nat.eq_of_testBit_eq
  intro i
  rw [Nat.testBit_and, Nat.testBit_shiftLeft, Nat.testBit_shiftLeft,
    Nat.testBit_two_pow_sub_one, Nat.testBit_mod_two_pow, Nat.testBit_shiftRight]
  by_cases hik : k ≤ i
  · have hki : k + (i - k) = i := by omega
    rw [hki]
    cases hx : x.testBit i <;> simp [hik, ge_iff_le]
  · simp [hik, ge_iff_le]

/-- Sign-bit extraction from a three-way bitwise or whose first summand is the
sign field of a 32-bit word and whose other two summands stay below bit 31. -/
lemma shiftRight31_or3 (s a b : Nat) (_hs : s < 2) (ha : a < 2147483648)
    (hb : b < 2147483648) : (s * 2147483648 ||| a ||| b) >>> 31 = s := by
  have h31 : (2 : Nat) ^ 31 = 2147483648 := by norm_num
  have hab : a ||| b < 2147483648 := by
    rw [← h31] at ha hb ⊢
    exact Nat.or_lt_two_pow ha hb
  rw [Nat.or_assoc]
  have hd : 2 ^ 31 * s ||| (a ||| b) = 2 ^ 31 * s + (a ||| b) :=
    (Nat.mul_add_lt_is_or (by rw [h31]; exact hab) s).symm
  rw [show s * 2147483648 = 2 ^ 31 * s by rw [h31, Nat.mul_comm], hd,
    Nat.shiftRight_eq_div_pow, h31]
  omega

/-- Two-way variant of `shiftRight31_or3`. -/
lemma shiftRight31_or2 (s a : Nat) (hs : s < 2) (ha : a < 2147483648) :
    (s * 2147483648 ||| a) >>> 31 = s := by
  have := shiftRight31_or3 s a 0 hs ha (by omega)
  simpa using this

/-- Bound on the normalisation count of the half-denormal do-while loop:
for every nonzero 10-bit mantissa the loop takes at most 10 iterations, so
`e` ends at most 9 and never wraps back into large values. -/
lemma denormLoop_bound : ∀ m, m < 1024 → 0 < m → (denormLoop 16 4294967295 m).1 ≤ 9 := by
  set_option maxRecDepth 8192 in decide

/-- C2: every single-precision NaN — any 32-bit pattern whose exponent field
(bits 23-30) is all ones and whose mantissa field (bits 0-22) is nonzero,
written here as `s * 2^31 + 255 * 2^23 + m` with `s < 2`, `0 < m < 2^23` —
narrows to exactly the half pattern 0xFE00, independent of the sign bit `s`
and of the payload `m` (src/src/half.c line 128). -/
theorem c2_single_nan_canonical (s m : Nat) (hs : s < 2) (hm0 : m ≠ 0)
    (hm : m < 8388608) :
    singles2halfp_elem (s * 2147483648 + 255 * 8388608 + m) = 0xFE00 := by
  set x := s * 2147483648 + 255 * 8388608 + m with hxdef
  have h1 : x &&& 2147483647 = 255 * 8388608 + m := by
    have hw := land_window x 31 0
    norm_num at hw
    rw [hw]; omega
  have h3 : x &&& 2139095040 = 255 * 8388608 := by
    have hw := land_window x 8 23
    norm_num at hw
    rw [hw]; omega
  have h4 : x &&& 8388607 = m := by
    have hw := land_window x 23 0
    norm_num at hw
    rw [hw]; omega
  simp only [singles2halfp_elem]
  rw [h1, h3, h4]
  rw [if_neg (by omega : ¬(255 * 8388608 + m = 0))]
  rw [if_neg (by omega : ¬(255 * 8388608 = 0))]
  rw [if_pos (by norm_num : 255 * 8388608 = 2139095040)]
  rw [if_neg hm0]

/-- C5: every normalized single-precision pattern whose re-biased exponent
`e - 127 + 15` is at least 31 (that is, exponent field `e ≥ 143`, `e ≤ 254`
keeping it normalized) narrows to signed infinity: the sign bit moved to bit
15, combined with 0x7C00 (src/src/half.c lines 132-134). -/
theorem c5_overflow_to_infinity (s e m : Nat) (hs : s < 2) (he1 : 143 ≤ e)
    (he2 : e ≤ 254) (hm : m < 8388608) :
    singles2halfp_elem (s * 2147483648 + e * 8388608 + m) = s * 32768 + 0x7C00 := by
  set x := s * 2147483648 + e * 8388608 + m with hxdef
  have h1 : x &&& 2147483647 = e * 8388608 + m := by
    have hw := land_window x 31 0
    norm_num at hw
    rw [hw]; omega
  have h2 : x &&& 2147483648 = s * 2147483648 := by
    have hw := land_window x 1 31
    norm_num at hw
    rw [hw]; omega
  have h3 : x &&& 2139095040 = e * 8388608 := by
    have hw := land_window x 8 23
    norm_num at hw
    rw [hw]; omega
  simp only [singles2halfp_elem]
  rw [h1, h2, h3]
  rw [if_neg (by omega : ¬(e * 8388608 + m = 0))]
  rw [if_neg (by omega : ¬(e * 8388608 = 0))]
  rw [if_neg (by omega : ¬(e * 8388608 = 2139095040))]
  have h5 : (e * 8388608) >>> 23 = e := by
    rw [Nat.shiftRight_eq_div_pow]
    have h23 : (2 : Nat) ^ 23 = 8388608 := by norm_num
    rw [h23]; omega
  rw [h5]
  rw [if_pos (by omega : 0x1F ≤ (e + 4294967184) % 4294967296)]
  have h6 : (s * 2147483648) >>> 16 = s * 32768 := by
    rw [Nat.shiftRight_eq_div_pow]
    have h16 : (2 : Nat) ^ 16 = 65536 := by norm_num
    rw [h16]; omega
  rw [h6]
  interval_cases s <;> decide

/-- Sign-bit preservation of `halfp2singles` on every nonzero half pattern
that is not a NaN (helper for claim C3). -/
lemma h2s_sign (h : Nat) (hlt : h < 65536) (hnz : h &&& 0x7FFF ≠ 0)
    (hnn : ¬(h &&& 0x7C00 = 0x7C00 ∧ h &&& 0x03FF ≠ 0)) :
    halfp2singles_elem h >>> 31 = h >>> 15 := by
  have hm1 : h &&& 32767 = h % 32768 := by
    have hw := land_window h 15 0
    norm_num at hw
    exact hw
  have hm2 : h &&& 32768 = h / 32768 % 2 * 32768 := by
    have hw := land_window h 1 15
    norm_num at hw
    exact hw
  have hm3 : h &&& 31744 = h / 1024 % 32 * 1024 := by
    have hw := land_window h 5 10
    norm_num at hw
    exact hw
  have hm4 : h &&& 1023 = h % 1024 := by
    have hw := land_window h 10 0
    norm_num at hw
    exact hw
  rw [hm1] at hnz
  rw [hm3, hm4] at hnn
  have hh15 : h >>> 15 = h / 32768 % 2 := by
    rw [Nat.shiftRight_eq_div_pow]
    have : (2 : Nat) ^ 15 = 32768 := by norm_num
    rw [this]; omega
  have hxs : ((h / 32768 % 2 * 32768) <<< 16) % 4294967296 = h / 32768 % 2 * 2147483648 := by
    rw [Nat.shiftLeft_eq]
    have : (2 : Nat) ^ 16 = 65536 := by norm_num
    rw [this]; omega
  simp only [halfp2singles_elem]
  rw [hm1, hm2, hm3, hm4, if_neg hnz]
  by_cases hE0 : h / 1024 % 32 = 0
  · -- half denormal: the normalisation loop runs, sign field is untouched
    rw [if_pos (by omega : h / 1024 % 32 * 1024 = 0)]
    have hmnz : 0 < h % 1024 := by omega
    have hml : h % 1024 < 1024 := by omega
    have hb := denormLoop_bound (h % 1024) hml hmnz
    rw [hxs, hh15]
    have hsh : (h / 1024 % 32 * 1024) >>> 10 = 0 := by
      rw [Nat.shiftRight_eq_div_pow]
      have : (2 : Nat) ^ 10 = 1024 := by norm_num
      rw [this]; omega
    rw [hsh]
    have hE : 0 + 112 + 4294967296 - (denormLoop 16 4294967295 (h % 1024)).1 = 4294967408 - (denormLoop 16 4294967295 (h % 1024)).1 := by omega
    have hxe : ((0 + 112 + 4294967296 - (denormLoop 16 4294967295 (h % 1024)).1) % 4294967296) <<< 23 % 4294967296 = (112 - (denormLoop 16 4294967295 (h % 1024)).1) * 8388608 := by
      rw [Nat.shiftLeft_eq]
      have : (2 : Nat) ^ 23 = 8388608 := by norm_num
      rw [this]; omega
    have hxm : ((denormLoop 16 4294967295 (h % 1024)).2 &&& 1023) <<< 13 % 4294967296 = (denormLoop 16 4294967295 (h % 1024)).2 % 1024 * 8192 := by
      have hw := land_window (denormLoop 16 4294967295 (h % 1024)).2 10 0
      norm_num at hw
      rw [hw, Nat.shiftLeft_eq]
      have : (2 : Nat) ^ 13 = 8192 := by norm_num
      rw [this]; omega
    rw [hxe, hxm]
    exact shiftRight31_or3 _ _ _ (by omega) (by omega) (by omega)
  · rw [if_neg (by omega : ¬h / 1024 % 32 * 1024 = 0)]
    by_cases hE31 : h / 1024 % 32 = 31
    · -- infinity (the NaN case is excluded by the hypothesis)
      rw [if_pos (by omega : h / 1024 % 32 * 1024 = 31744)]
      have hm0 : h % 1024 = 0 := by
        by_contra hc
        exact hnn ⟨by omega, hc⟩
      rw [if_pos hm0, hxs, hh15]
      exact shiftRight31_or2 _ _ (by omega) (by omega)
    · -- normalized half
      rw [if_neg (by omega : ¬h / 1024 % 32 * 1024 = 31744)]
      rw [hxs, hh15]
      have hsh : (h / 1024 % 32 * 1024) >>> 10 = h / 1024 % 32 := by
        rw [Nat.shiftRight_eq_div_pow]
        have : (2 : Nat) ^ 10 = 1024 := by norm_num
        rw [this]; omega
      rw [hsh]
      have hxe : (h / 1024 % 32 + 112) <<< 23 % 4294967296 = (h / 1024 % 32 + 112) * 8388608 := by
        rw [Nat.shiftLeft_eq]
        have : (2 : Nat) ^ 23 = 8388608 := by norm_num
        rw [this]; omega
      have hxm : (h % 1024) <<< 13 % 4294967296 = h % 1024 * 8192 := by
        rw [Nat.shiftLeft_eq]
        have : (2 : Nat) ^ 13 = 8192 := by norm_num
        rw [this]; omega
      rw [hxe, hxm]
      exact shiftRight31_or3 _ _ _ (by omega) (by omega) (by omega)

/-- Sign-bit preservation of `halfp2doubles` (on the high-order word it
writes) on every nonzero half pattern that is not a NaN (helper for C3). -/
lemma h2d_sign (h : Nat) (hlt : h < 65536) (hnz : h &&& 0x7FFF ≠ 0)
    (hnn : ¬(h &&& 0x7C00 = 0x7C00 ∧ h &&& 0x03FF ≠ 0)) :
    halfp2doubles_elem h >>> 31 = h >>> 15 := by
  have hm1 : h &&& 32767 = h % 32768 := by
    have hw := land_window h 15 0
    norm_num at hw
    exact hw
  have hm2 : h &&& 32768 = h / 32768 % 2 * 32768 := by
    have hw := land_window h 1 15
    norm_num at hw
    exact hw
  have hm3 : h &&& 31744 = h / 1024 % 32 * 1024 := by
    have hw := land_window h 5 10
    norm_num at hw
    exact hw
  have hm4 : h &&& 1023 = h % 1024 := by
    have hw := land_window h 10 0
    norm_num at hw
    exact hw
  rw [hm1] at hnz
  rw [hm3, hm4] at hnn
  have hh15 : h >>> 15 = h / 32768 % 2 := by
    rw [Nat.shiftRight_eq_div_pow]
    have : (2 : Nat) ^ 15 = 32768 := by norm_num
    rw [this]; omega
  have hxs : ((h / 32768 % 2 * 32768) <<< 16) % 4294967296 = h / 32768 % 2 * 2147483648 := by
    rw [Nat.shiftLeft_eq]
    have : (2 : Nat) ^ 16 = 65536 := by norm_num
    rw [this]; omega
  simp only [halfp2doubles_elem]
  rw [hm1, hm2, hm3, hm4, if_neg hnz]
  by_cases hE0 : h / 1024 % 32 = 0
  · rw [if_pos (by omega : h / 1024 % 32 * 1024 = 0)]
    have hmnz : 0 < h % 1024 := by omega
    have hml : h % 1024 < 1024 := by omega
    have hb := denormLoop_bound (h % 1024) hml hmnz
    rw [hxs, hh15]
    have hsh : (h / 1024 % 32 * 1024) >>> 10 = 0 := by
      rw [Nat.shiftRight_eq_div_pow]
      have : (2 : Nat) ^ 10 = 1024 := by norm_num
      rw [this]; omega
    rw [hsh]
    have hxe : ((0 + 1008 + 4294967296 - (denormLoop 16 4294967295 (h % 1024)).1) % 4294967296) <<< 20 % 4294967296 = (1008 - (denormLoop 16 4294967295 (h % 1024)).1) * 1048576 := by
      rw [Nat.shiftLeft_eq]
      have : (2 : Nat) ^ 20 = 1048576 := by norm_num
      rw [this]; omega
    have hxm : ((denormLoop 16 4294967295 (h % 1024)).2 &&& 1023) <<< 10 % 4294967296 = (denormLoop 16 4294967295 (h % 1024)).2 % 1024 * 1024 := by
      have hw := land_window (denormLoop 16 4294967295 (h % 1024)).2 10 0
      norm_num at hw
      rw [hw, Nat.shiftLeft_eq]
      have : (2 : Nat) ^ 10 = 1024 := by norm_num
      rw [this]; omega
    rw [hxe, hxm]
    exact shiftRight31_or3 _ _ _ (by omega) (by omega) (by omega)
  · rw [if_neg (by omega : ¬h / 1024 % 32 * 1024 = 0)]
    by_cases hE31 : h / 1024 % 32 = 31
    · rw [if_pos (by omega : h / 1024 % 32 * 1024 = 31744)]
      have hm0 : h % 1024 = 0 := by
        by_contra hc
        exact hnn ⟨by omega, hc⟩
      rw [if_pos hm0, hxs, hh15]
      exact shiftRight31_or2 _ _ (by omega) (by omega)
    · rw [if_neg (by omega : ¬h / 1024 % 32 * 1024 = 31744)]
      rw [hxs, hh15]
      have hsh : (h / 1024 % 32 * 1024) >>> 10 = h / 1024 % 32 := by
        rw [Nat.shiftRight_eq_div_pow]
        have : (2 : Nat) ^ 10 = 1024 := by norm_num
        rw [this]; omega
      rw [hsh]
      have hxe : (h / 1024 % 32 + 1008) <<< 20 % 4294967296 = (h / 1024 % 32 + 1008) * 1048576 := by
        rw [Nat.shiftLeft_eq]
        have : (2 : Nat) ^ 20 = 1048576 := by norm_num
        rw [this]; omega
      have hxm : (h % 1024) <<< 10 % 4294967296 = h % 1024 * 1024 := by
        rw [Nat.shiftLeft_eq]
        have : (2 : Nat) ^ 10 = 1024 := by norm_num
        rw [this]; omega
      rw [hxe, hxm]
      exact shiftRight31_or3 _ _ _ (by omega) (by omega) (by omega)

/-- C3 (corrected): widening preserves the sign bit for every nonzero half
pattern except the NaN patterns; a half NaN of either sign widens to the
fixed patterns 0xFFC00000 / 0xFFF80000 whose sign bit is 1 (lines 319 and
403), so the claim as stated — which includes NaN patterns — fails.  Here:
for every `h < 2^16` with `h &&& 0x7FFF ≠ 0` that is not a NaN (it does not
have all exponent bits set together with a nonzero mantissa), bit 31 of the
single produced by `halfp2singles` and of the high word produced by
`halfp2doubles` equals bit 15 of `h`. -/
theorem c3_sign_preserved_amended (h : Nat) (hlt : h < 65536)
    (hnz : h &&& 0x7FFF ≠ 0) (hnn : ¬(h &&& 0x7C00 = 0x7C00 ∧ h &&& 0x03FF ≠ 0)) :
    halfp2singles_elem h >>> 31 = h >>> 15 ∧ halfp2doubles_elem h >>> 31 = h >>> 15 :=
  ⟨h2s_sign h hlt hnz hnn, h2d_sign h hlt hnz hnn⟩

/-- Witness for C3 (amended): negative infinity 0xFC00 keeps its sign bit
through both widening routines. -/
theorem c3_sign_preserved_amended_witness :
    halfp2singles_elem 0xFC00 >>> 31 = 0xFC00 >>> 15 ∧
      halfp2doubles_elem 0xFC00 >>> 31 = 0xFC00 >>> 15 :=
  c3_sign_preserved_amended 0xFC00 (by decide) (by decide) (by decide)

/-- Counterexample to C3 as stated: the positive NaN half 0x7C01 (sign bit 0)
widens to 0xFFC00000 and 0xFFF80000, both with sign bit 1, under
`halfp2singles` and `halfp2doubles` respectively. -/
theorem c3_nan_sign_counterexample :
    0x7C01 &&& 0x7FFF ≠ 0 ∧
      halfp2singles_elem 0x7C01 = 0xFFC00000 ∧
      halfp2doubles_elem 0x7C01 = 0xFFF80000 ∧
      halfp2singles_elem 0x7C01 >>> 31 ≠ 0x7C01 >>> 15 ∧
      halfp2doubles_elem 0x7C01 >>> 31 ≠ 0x7C01 >>> 15 := by
  refine ⟨by decide, by decide, by decide, by decide, by decide⟩

/-- Witness for C2: the negative NaN with payload 1 narrows to 0xFE00. -/
theorem c2_single_nan_canonical_witness :
    singles2halfp_elem (1 * 2147483648 + 255 * 8388608 + 1) = 0xFE00 :=
  c2_single_nan_canonical 1 1 (by decide) (by decide) (by decide)

/-- Witness for C5: the negative single with exponent field 143 and zero
mantissa (bit pattern 0xC7800000, value -65536) narrows to 0xFC00. -/
theorem c5_overflow_to_infinity_witness :
    singles2halfp_elem (1 * 2147483648 + 143 * 8388608 + 0) = 1 * 32768 + 0x7C00 :=
  c5_overflow_to_infinity 1 143 0 (by decide) (by decide) (by decide) (by decide)

/-- C6: narrowing preserves signed zero exactly: the single pattern
0x00000000 (+0.0) maps to the half 0x0000 and the single pattern 0x80000000
(-0.0) maps to the half 0x8000 (src/src/half.c lines 116-117, which test
sign, exponent and mantissa together so that only true zeros reach this
branch, and shift the sign bit into place). -/
theorem c6_signed_zero_preserved :
    singles2halfp_elem 0x00000000 = 0x0000 ∧
      singles2halfp_elem 0x80000000 = 0x8000 :=
  ⟨by decide, by decide⟩

/-- C1 is violated by the code (code bug): the smallest half denormal 0x0001
widens exactly — to the single 0x33800000 = 2^-24 and to the double high
word 0x3E700000 — but narrowing those values back yields 0x7C00 (+infinity)
instead of 0x0001.  Cause: `hes` is declared `cmsUInt32Number` (lines 90 and
180), so the re-biased exponent 103 - 112 = -9 wraps to 2^32 - 9 and takes
the `hes >= 0x1F` overflow branch (lines 133-134 / 225-226) rather than the
intended underflow branch.  This contradicts the file's own header comment
(lines 57-60: "2^(-24) is the smallest number that can be represented in
half precision exactly"). -/
theorem c1_roundtrip_denormal_behavior :
    halfp2singles_elem 0x0001 = 0x33800000 ∧
      singles2halfp_elem (halfp2singles_elem 0x0001) = 0x7C00 ∧
      halfp2doubles_elem 0x0001 = 0x3E700000 ∧
      doubles2halfp_elem (halfp2doubles_elem 0x0001) = 0x7C00 ∧
      singles2halfp_elem (halfp2singles_elem 0x0001) ≠ 0x0001 :=
  ⟨by decide, by decide, by decide, by decide, by decide⟩

/-- C4 is violated by the code (code bug): the single 0x00800000 (2^-126,
far below 2^-25) narrows to 0x7C00 (+infinity) instead of the claimed signed
zero, and 0x33800000 (exactly 2^-24) narrows to 0x7C00 instead of the
claimed smallest half denormal 0x0001 — both because the unsigned `hes`
wraps as described in the header comment above.  Only inputs with an all-zero
exponent field, such as 0x80000001, still produce the claimed signed zero,
since they are dispatched before `hes` is computed (lines 122-123). -/
theorem c4_underflow_behavior :
    singles2halfp_elem 0x00800000 = 0x7C00 ∧
      singles2halfp_elem 0x33800000 = 0x7C00 ∧
      singles2halfp_elem 0x80000001 = 0x8000 ∧
      singles2halfp_elem 0x00800000 ≠ 0x0000 ∧
      singles2halfp_elem 0x33800000 ≠ 0x0001 :=
  ⟨by decide, by decide, by decide, by decide, by decide⟩

/-- The conversion loop never touches target indices outside the arithmetic
progression it writes (`ti`, `ti + tstep`, ...). -/
lemma convLoop_frame (f src : Nat → Nat) (sstep tstep : Nat) :
    ∀ n si ti (mem : Nat → Nat) j, (∀ i, i < n → j ≠ ti + tstep * i) →
      convLoop f src sstep tstep si ti n mem j = mem j := by
  intro n
  induction n with
  | zero => intro si ti mem j _; rfl
  | succ n ih =>
    intro si ti mem j hj
    show convLoop f src sstep tstep (si + sstep) (ti + tstep) n
      (writeMem mem ti (f (src si))) j = mem j
    rw [ih]
    · show (if j = ti then f (src si) else mem j) = mem j
      rw [if_neg]
      have := hj 0 (by omega)
      omega
    · intro i hi
      have := hj (i + 1) (by omega)
      intro hcontra
      apply this
      rw [hcontra]
      ring

/-- The conversion loop depends on the source only at the indices it reads
(`si`, `si + sstep`, ...). -/
lemma convLoop_congr (f src src2 : Nat → Nat) (sstep tstep : Nat) :
    ∀ n si ti (mem : Nat → Nat),
      (∀ i, i < n → src (si + sstep * i) = src2 (si + sstep * i)) →
      convLoop f src sstep tstep si ti n mem =
        convLoop f src2 sstep tstep si ti n mem := by
  intro n
  induction n with
  | zero => intro si ti mem _; rfl
  | succ n ih =>
    intro si ti mem hagree
    show convLoop f src sstep tstep (si + sstep) (ti + tstep) n
        (writeMem mem ti (f (src si))) =
      convLoop f src2 sstep tstep (si + sstep) (ti + tstep) n
        (writeMem mem ti (f (src2 si)))
    have h0 : src si = src2 si := by
      have := hagree 0 (by omega)
      simpa using this
    rw [h0]
    apply ih
    intro i hi
    have := hagree (i + 1) (by omega)
    have harith : si + sstep * (i + 1) = si + sstep + sstep * i := by ring
    rw [harith] at this
    exact this

/-- The statics a routine returns are exactly what its prologue produced. -/
lemma convRoutine_statics (clearVal : Bool) (f : Nat → Nat) (sstep tstep : Nat)
    (snext tnext : Bool) (host : Host) (st : Statics)
    (target source : Option (Nat → Nat)) (numel : Nat) :
    (convRoutine clearVal f sstep tstep snext tnext host st target source numel).1 =
      (prologue clearVal host st).1 := by
  unfold convRoutine
  cases hok : (prologue clearVal host st).2.2 <;>
    cases source <;> cases target <;> simp [hok]

/-- On a passing probe, a NULL source or target makes any routine return TRUE
without touching the target buffer. -/
lemma convRoutine_null (clearVal : Bool) (f : Nat → Nat) (sstep tstep : Nat)
    (snext tnext : Bool) (host : Host) (st : Statics)
    (target source : Option (Nat → Nat)) (numel : Nat)
    (hpass : probePass host = true) (hnull : source = none ∨ target = none) :
    (convRoutine clearVal f sstep tstep snext tnext host st target source numel).2.1 = true ∧
      (convRoutine clearVal f sstep tstep snext tnext host st target source numel).2.2 = target := by
  have hok : (prologue clearVal host st).2.2 = true := by
    unfold prologue
    cases hc : st.checkieee <;> simp [hc, hpass]
  unfold convRoutine
  rcases hnull with hn | hn
  · subst hn
    cases target <;> simp [hok]
  · subst hn
    cases source <;> simp [hok]

/-- A routine returns FALSE exactly when its flag was still set and the probe
fails; every other path returns TRUE. -/
lemma convRoutine_ret (clearVal : Bool) (f : Nat → Nat) (sstep tstep : Nat)
    (snext tnext : Bool) (host : Host) (st : Statics)
    (target source : Option (Nat → Nat)) (numel : Nat) :
    (convRoutine clearVal f sstep tstep snext tnext host st target source numel).2.1 =
      (!st.checkieee || probePass host) := by
  unfold convRoutine prologue
  cases hc : st.checkieee <;> cases hp : probePass host <;>
    cases source <;> cases target <;> simp [hc, hp]

/-- How a routine's own `checkieee` flag evolves: it stays cleared once
cleared, stays set when the probe fails, and becomes `clearVal` on a
successful probe. -/
lemma convRoutine_flag (clearVal : Bool) (f : Nat → Nat) (sstep tstep : Nat)
    (snext tnext : Bool) (host : Host) (st : Statics)
    (target source : Option (Nat → Nat)) (numel : Nat) :
    (convRoutine clearVal f sstep tstep snext tnext host st target source numel).1.checkieee =
      (st.checkieee && (!probePass host || clearVal)) := by
  rw [convRoutine_statics]
  unfold prologue
  cases hc : st.checkieee <;> cases hp : probePass host <;> simp [hc, hp]

/-- Return value of one call in the process model. -/
lemma step_ret (host : Host) (ps : ProcState) (r : Routine) (a : CallArgs) :
    (step host ps r a).2.1 = (!flagOf ps r || probePass host) := by
  cases r <;>
    simp [step, singles2halfp, doubles2halfp, halfp2singles, halfp2doubles,
      flagOf, convRoutine_ret]

/-- A call runs the probe exactly when the called routine's flag is set. -/
lemma step_ran (host : Host) (ps : ProcState) (r : Routine) (a : CallArgs) :
    (step host ps r a).2.2 = flagOf ps r := by
  cases r <;> rfl

/-- Evolution of the called routine's own flag (all four clearing values
reduce to `false`, `FLASE` included). -/
lemma step_flag_self (host : Host) (ps : ProcState) (r : Routine) (a : CallArgs) :
    flagOf (step host ps r a).1 r = (flagOf ps r && !probePass host) := by
  cases r <;>
    simp [step, singles2halfp, doubles2halfp, halfp2singles, halfp2doubles,
      flagOf, convRoutine_flag, FLASE]

/-- A call leaves the statics of every other routine untouched. -/
lemma step_flag_other (host : Host) (ps : ProcState) (r : Routine) (a : CallArgs)
    (r2 : Routine) (hne : r2 ≠ r) :
    flagOf (step host ps r a).1 r2 = flagOf ps r2 := by
  cases r <;> cases r2 <;> first | exact (hne rfl).elim | rfl

/-- When the probe fails, no call ever clears any flag. -/
lemma flags_frozen (host : Host) (hp : probePass host = false) :
    ∀ (trace : List (Routine × CallArgs)) (ps : ProcState) (r : Routine),
      flagOf (runTrace host ps trace) r = flagOf ps r := by
  intro trace
  induction trace with
  | nil => intro ps r; rfl
  | cons c cs ih =>
    intro ps r
    show flagOf (runTrace host (step host ps c.1 c.2).1 cs) r = flagOf ps r
    rw [ih]
    by_cases hcr : r = c.1
    · subst hcr
      rw [step_flag_self, hp]
      simp
    · exact step_flag_other host ps c.1 c.2 r hcr

/-- A routine whose flag is already cleared never runs the probe again. -/
lemma probeRuns_zero (host : Host) :
    ∀ (trace : List (Routine × CallArgs)) (ps : ProcState) (r : Routine),
      flagOf ps r = false → probeRuns host ps trace r = 0 := by
  intro trace
  induction trace with
  | nil => intro ps r _; rfl
  | cons c cs ih =>
    intro ps r hf
    show (if c.1 = r ∧ (step host ps c.1 c.2).2.2 = true then 1 else 0) +
      probeRuns host (step host ps c.1 c.2).1 cs r = 0
    have hflag2 : flagOf (step host ps c.1 c.2).1 r = false := by
      by_cases hcr : r = c.1
      · subst hcr; rw [step_flag_self, hf]; rfl
      · rw [step_flag_other host ps c.1 c.2 r hcr]; exact hf
    rw [ih _ _ hflag2]
    by_cases hcr : c.1 = r
    · subst hcr
      rw [if_neg]
      rintro ⟨-, hcontra⟩
      rw [step_ran, hf] at hcontra
      exact Bool.noConfusion hcontra
    · rw [if_neg]
      rintro ⟨hcontra, -⟩
      exact hcr hcontra

/-- On a compliant host each routine runs the probe at most once, from any
starting state. -/
lemma probeRuns_le_one (host : Host) (hpass : probePass host = true) :
    ∀ (trace : List (Routine × CallArgs)) (ps : ProcState) (r : Routine),
      probeRuns host ps trace r ≤ 1 := by
  intro trace
  induction trace with
  | nil => intro ps r; exact Nat.zero_le 1
  | cons c cs ih =>
    intro ps r
    show (if c.1 = r ∧ (step host ps c.1 c.2).2.2 = true then 1 else 0) +
      probeRuns host (step host ps c.1 c.2).1 cs r ≤ 1
    by_cases hcr : c.1 = r
    · subst hcr
      cases hflag : flagOf ps c.1 with
      | false =>
        rw [if_neg (by rintro ⟨-, hcontra⟩; rw [step_ran, hflag] at hcontra; exact Bool.noConfusion hcontra)]
        simpa using ih (step host ps c.1 c.2).1 c.1
      | true =>
        have hflag2 : flagOf (step host ps c.1 c.2).1 c.1 = false := by
          rw [step_flag_self, hflag, hpass]; rfl
        rw [probeRuns_zero host cs _ _ hflag2]
        split <;> omega
    · rw [if_neg (by rintro ⟨hcontra, -⟩; exact hcr hcontra)]
      simpa using ih (step host ps c.1 c.2).1 r

/-- C7: for each of the four conversion routines, a NULL source or target
address makes the routine write nothing (the target buffer comes back
unchanged) and return success (TRUE), for every element count and in every
statics state, provided the host IEEE-754 probe passes (lines 110-112,
202-204, 293-294, 377-378). -/
theorem c7_null_buffer_noop (host : Host) (st1 st2 st3 st4 : Statics)
    (target source : Option (Nat → Nat)) (numel : Nat)
    (hpass : probePass host = true) (hnull : source = none ∨ target = none) :
    ((singles2halfp host st1 target source numel).2.1 = true ∧
      (singles2halfp host st1 target source numel).2.2 = target) ∧
    ((doubles2halfp host st2 target source numel).2.1 = true ∧
      (doubles2halfp host st2 target source numel).2.2 = target) ∧
    ((halfp2singles host st3 target source numel).2.1 = true ∧
      (halfp2singles host st3 target source numel).2.2 = target) ∧
    ((halfp2doubles host st4 target source numel).2.1 = true ∧
      (halfp2doubles host st4 target source numel).2.2 = target) :=
  ⟨convRoutine_null FLASE singles2halfp_elem 1 1 false false host st1
      target source numel hpass hnull,
    convRoutine_null false doubles2halfp_elem 2 1 true false host st2
      target source numel hpass hnull,
    convRoutine_null false halfp2singles_elem 1 1 false false host st3
      target source numel hpass hnull,
    convRoutine_null false halfp2doubles_elem 1 2 false true host st4
      target source numel hpass hnull⟩

/-- Witness for C7: on a little-endian compliant host, a first call to
`singles2halfp` with a NULL source returns TRUE and leaves the target
untouched. -/
theorem c7_null_buffer_noop_witness :
    (singles2halfp hostLE initStatics (some (fun _ => 3)) none 5).2.1 = true ∧
      (singles2halfp hostLE initStatics (some (fun _ => 3)) none 5).2.2 =
        some (fun _ => 3) :=
  (c7_null_buffer_noop hostLE initStatics initStatics initStatics initStatics
    (some (fun _ => 3)) none 5 (by decide) (Or.inl rfl)).1

/-- C8: in every state the process can reach from start by any sequence of
calls, a call to any of the four routines returns FALSE exactly when the
host probe fails — that is, when the high-order word of the double literal
1.0 selected by the word-order test differs from 0x3FF00000 (`probePass`).
On a compliant host every call returns TRUE, whatever the buffers and the
element count. -/
theorem c8_return_iff_probe (host : Host) (trace : List (Routine × CallArgs))
    (r : Routine) (a : CallArgs) :
    (step host (runTrace host initState trace) r a).2.1 = false ↔
      probePass host = false := by
  rw [step_ret]
  cases hp : probePass host
  · have hf : flagOf (runTrace host initState trace) r = true := by
      rw [flags_frozen host hp]
      cases r <;> rfl
    simp [hf]
  · simp

/-- Counterexample to C9 as stated: on a little-endian IEEE host, the first
call to `singles2halfp` runs the probe and succeeds (returns TRUE), yet a
subsequent call to `doubles2halfp` runs the probe again — each routine keeps
its own `static cmsBool checkieee` flag, so the probe is per routine, not
per process. -/
theorem c9_probe_rerun_counterexample :
    (step hostLE initState .s2h nullArgs).2.2 = true ∧
      (step hostLE initState .s2h nullArgs).2.1 = true ∧
      (step hostLE (step hostLE initState .s2h nullArgs).1 .d2h nullArgs).2.2 = true :=
  ⟨by decide, by decide, by decide⟩

/-- C9 (corrected): the probe and its cached result are computed at most once
per ROUTINE (hence at most four times per process), not once per process:
on a compliant host, in any sequence of calls starting from process start —
indeed from any state — each routine runs the probe at most once. -/
theorem c9_probe_once_per_routine (host : Host) (hpass : probePass host = true)
    (trace : List (Routine × CallArgs)) (r : Routine) :
    probeRuns host initState trace r ≤ 1 :=
  probeRuns_le_one host hpass trace initState r

/-- Witness for C9 (amended): on a little-endian compliant host, the trace
(singles2halfp, singles2halfp, doubles2halfp) makes `singles2halfp` run the
probe at most once. -/
theorem c9_probe_once_per_routine_witness :
    probeRuns hostLE initState
      [(.s2h, nullArgs), (.s2h, nullArgs), (.d2h, nullArgs)] .s2h ≤ 1 :=
  c9_probe_once_per_routine hostLE (by decide)
    [(.s2h, nullArgs), (.s2h, nullArgs), (.d2h, nullArgs)] .s2h

/-- With both buffers present, the result of a routine depends on the source
only at the indices the loop reads. -/
lemma convRoutine_src_congr (clearVal : Bool) (f : Nat → Nat) (sstep tstep : Nat)
    (snext tnext : Bool) (host : Host) (st : Statics) (tgt src src2 : Nat → Nat)
    (numel : Nat)
    (hagree : ∀ i, i < numel →
      src ((if snext then (prologue clearVal host st).1.next else 0) + sstep * i) =
        src2 ((if snext then (prologue clearVal host st).1.next else 0) + sstep * i)) :
    convRoutine clearVal f sstep tstep snext tnext host st (some tgt) (some src) numel =
      convRoutine clearVal f sstep tstep snext tnext host st (some tgt) (some src2) numel := by
  unfold convRoutine
  cases hok : (prologue clearVal host st).2.2 <;> simp [hok]
  exact convLoop_congr f src src2 sstep tstep numel _ _ tgt hagree

/-- With both buffers present, a routine leaves every target index outside
the progression it writes unchanged. -/
lemma convRoutine_frame (clearVal : Bool) (f : Nat → Nat) (sstep tstep : Nat)
    (snext tnext : Bool) (host : Host) (st : Statics) (tgt src : Nat → Nat)
    (numel j : Nat)
    (hj : ∀ i, i < numel →
      j ≠ (if tnext then (prologue clearVal host st).1.next else 0) + tstep * i) :
    ∃ mem2, (convRoutine clearVal f sstep tstep snext tnext host st
        (some tgt) (some src) numel).2.2 = some mem2 ∧ mem2 j = tgt j := by
  unfold convRoutine
  cases hok : (prologue clearVal host st).2.2 <;> simp [hok]
  exact convLoop_frame f src sstep tstep numel _ _ tgt j hj

/-- C10: the two 64-bit routines touch only the high-order word of each
double.  First conjunct: the output of `doubles2halfp` depends only on the
words at source indices `next + 2*i` (the high word of each input double) —
two sources agreeing there produce identical results, whatever their low
words hold, rounding included.  Second conjunct: `halfp2doubles` writes only
the target words at indices `next + 2*i`; every other word of the
destination — in particular the low word of every destination double — keeps
its previous value. -/
theorem c10_highword_only (host : Host) (st : Statics) (tgt src src2 : Nat → Nat)
    (numel : Nat) :
    ((∀ i, i < numel →
        src ((doubles2halfp host st (some tgt) (some src) numel).1.next + 2 * i) =
          src2 ((doubles2halfp host st (some tgt) (some src) numel).1.next + 2 * i)) →
      doubles2halfp host st (some tgt) (some src) numel =
        doubles2halfp host st (some tgt) (some src2) numel) ∧
    (∀ j, (∀ i, i < numel →
        j ≠ (halfp2doubles host st (some tgt) (some src) numel).1.next + 2 * i) →
      ∃ mem2, (halfp2doubles host st (some tgt) (some src) numel).2.2 = some mem2 ∧
        mem2 j = tgt j) := by
  have hst1 : (doubles2halfp host st (some tgt) (some src) numel).1 =
      (prologue false host st).1 :=
    convRoutine_statics false doubles2halfp_elem 2 1 true false host st _ _ numel
  have hst2 : (halfp2doubles host st (some tgt) (some src) numel).1 =
      (prologue false host st).1 :=
    convRoutine_statics false halfp2doubles_elem 1 2 false true host st _ _ numel
  constructor
  · intro hagree
    refine convRoutine_src_congr false doubles2halfp_elem 2 1 true false host st
      tgt src src2 numel ?_
    intro i hi
    have hthis := hagree i hi
    rw [hst1] at hthis
    simpa using hthis
  · intro j hj
    refine convRoutine_frame false halfp2doubles_elem 1 2 false true host st
      tgt src numel j ?_
    intro i hi
    have hthis := hj i hi
    rw [hst2] at hthis
    simpa using hthis

/-- Witness for C10: on a little-endian compliant host (`next = 1`),
converting one double whose sources agree on the high word (index 1) but
differ on the low word (index 0) yields identical results, and converting
one half to a double leaves the low word (index 0) of the destination at its
old value 7. -/
theorem c10_highword_only_witness :
    (doubles2halfp hostLE initStatics (some (fun _ => 7)) (some (fun _ => 0)) 1 =
      doubles2halfp hostLE initStatics (some (fun _ => 7))
        (some (fun k => if k = 1 then 0 else 9)) 1) ∧
    (∃ mem2, (halfp2doubles hostLE initStatics (some (fun _ => 7))
        (some (fun _ => 0)) 1).2.2 = some mem2 ∧ mem2 0 = 7) := by
  constructor
  · refine (c10_highword_only hostLE initStatics (fun _ => 7) (fun _ => 0)
      (fun k => if k = 1 then 0 else 9) 1).1 ?_
    intro i hi
    have hi0 : i = 0 := by omega
    subst hi0
    decide
  · refine (c10_highword_only hostLE initStatics (fun _ => 7) (fun _ => 0)
      (fun k => if k = 1 then 0 else 9) 1).2 0 ?_
    intro i hi
    have hi0 : i = 0 := by omega
    subst hi0
    decide

example : halfp2singles_elem 0x3C00 = 0x3F800000 := by decide
example : singles2halfp_elem 0x3F800000 = 0x3C00 := by decide
example : halfp2singles_elem 0x0001 = 0x33800000 := by decide
example : singles2halfp_elem 0x33800000 = 0x7C00 := by decide
example : halfp2doubles_elem 0x0001 = 0x3E700000 := by decide
example : doubles2halfp_elem 0x3E700000 = 0x7C00 := by decide
example : halfp2doubles_elem 0x3C00 = 0x3FF00000 := by decide
example : doubles2halfp_elem 0x3FF00000 = 0x3C00 := by decide
example : singles2halfp_elem 0x80000000 = 0x8000 := by decide
example : halfp2singles_elem 0x7C01 = 0xFFC00000 := by decide
example : halfp2doubles_elem 0x7C01 = 0xFFF80000 := by decide
example : singles2halfp_elem 0xFF800000 = 0xFC00 := by decide
example : singles2halfp_elem 0x7FC00001 = 0xFE00 := by decide

end HalfConv
